import Mathlib

/-!
Verification of the batch orchestration and resilience engine of
the google-cloud-tts-batch-processor repository.

The definitions below are a shallow embedding, in Lean, of the Python code in
src/src/core/error_handler.py and src/src/core/tts_batch_processor.py.
Real-valued quantities (timestamps, delays, complexity scores) are modelled
with rationals; fallible operations return Option; the filesystem is modelled
as an explicit predicate or state where the claims need it.
-/

namespace TTS

/-! ## Circuit breaker (error_handler.py, class CircuitBreaker) -/

/-- States of the circuit breaker, as in class CircuitState. -/
inductive CircuitState
  | CLOSED
  | OPEN
  | HALF_OPEN
deriving DecidableEq, Repr

/-- Configuration for the circuit breaker (class CircuitBreakerConfig).
The expected_exception field is not modelled: its default, Exception,
catches every failure, which is how failures are represented here; the
monitor_interval field only drives a logging thread. -/
structure CircuitBreakerConfig where
  failure_threshold : Nat := 5
  recovery_timeout : ℚ := 60

/-- Mutable state of a CircuitBreaker instance. -/
structure CircuitBreaker where
  failure_count : Nat
  last_failure_time : Option ℚ
  state : CircuitState
deriving DecidableEq, Repr

/-- State of a freshly constructed CircuitBreaker (CircuitBreaker.__init__). -/
def CircuitBreaker.init : CircuitBreaker :=
  { failure_count := 0, last_failure_time := none, state := CircuitState.CLOSED }

/-- Outcome of one protected call: the wrapped function succeeded, the wrapped
function raised, or the CircuitBreakerOpenException was raised without the
wrapped function being invoked at all. -/
inductive CallOutcome
  | success
  | failure
  | circuitOpen
deriving DecidableEq, Repr

/-- CircuitBreaker._on_success: in HALF_OPEN the breaker closes; the failure
counter is reset unconditionally. -/
def CircuitBreaker.onSuccess (cb : CircuitBreaker) : CircuitBreaker :=
  { cb with
    state := if cb.state = CircuitState.HALF_OPEN then CircuitState.CLOSED else cb.state,
    failure_count := 0 }

/-- CircuitBreaker._on_failure: increment the counter, stamp the failure time,
and open the breaker once the counter reaches the threshold. -/
def CircuitBreaker.onFailure (cfg : CircuitBreakerConfig) (cb : CircuitBreaker) (now : ℚ) :
    CircuitBreaker :=
  { cb with
    failure_count := cb.failure_count + 1,
    last_failure_time := some now,
    state :=
      if cfg.failure_threshold ≤ cb.failure_count + 1 then CircuitState.OPEN else cb.state }

/-- CircuitBreaker.call: the wrapped function is abstracted by the boolean
fnOk (does this invocation succeed?).  While OPEN and within the recovery
timeout the call raises CircuitBreakerOpenException without invoking the
function; past the timeout the breaker moves to HALF_OPEN and lets the call
through.  In the source, last_failure_time is always set when the breaker is
OPEN (OPEN is only ever entered by _on_failure), so the getD 0 default is
never observable. -/
def CircuitBreaker.call (cfg : CircuitBreakerConfig) (cb : CircuitBreaker) (now : ℚ)
    (fnOk : Bool) : CallOutcome × CircuitBreaker :=
  if cb.state = CircuitState.OPEN ∧
      ¬ cfg.recovery_timeout < now - (cb.last_failure_time.getD 0) then
    (CallOutcome.circuitOpen, cb)
  else
    let cb1 := if cb.state = CircuitState.OPEN
      then { cb with state := CircuitState.HALF_OPEN } else cb
    if fnOk then (CallOutcome.success, cb1.onSuccess)
    else (CallOutcome.failure, cb1.onFailure cfg now)

/-- C1: circuit breaker state machine.  With failureThreshold = 3 and a fresh
breaker, three consecutive failed calls (at times t1, t2, t3) step the breaker
CLOSED → CLOSED → CLOSED → OPEN with the failure counter at the threshold.
While OPEN and now - t3 ≤ recoveryTimeout, every call (whatever the wrapped
function would do) raises the circuit-open error without invoking the wrapped
function and leaves the breaker unchanged.  Once recoveryTimeout < now2 - t3,
the next call is executed as a probe: a successful probe yields a CLOSED
breaker with failureCount = 0, and a failed probe yields an OPEN breaker
again (the counter, still at threshold on entering HALF_OPEN, is bumped to 4). -/
theorem C1_circuit_breaker_state_machine
    (cfg : CircuitBreakerConfig) (t1 t2 t3 now now2 : ℚ) (b : Bool)
    (hthr : cfg.failure_threshold = 3)
    (hwait : now - t3 ≤ cfg.recovery_timeout)
    (hrec : cfg.recovery_timeout < now2 - t3) :
    (CircuitBreaker.call cfg CircuitBreaker.init t1 false).2 =
      ⟨1, some t1, CircuitState.CLOSED⟩ ∧
    (CircuitBreaker.call cfg ⟨1, some t1, CircuitState.CLOSED⟩ t2 false).2 =
      ⟨2, some t2, CircuitState.CLOSED⟩ ∧
    (CircuitBreaker.call cfg ⟨2, some t2, CircuitState.CLOSED⟩ t3 false).2 =
      ⟨3, some t3, CircuitState.OPEN⟩ ∧
    CircuitBreaker.call cfg ⟨3, some t3, CircuitState.OPEN⟩ now b =
      (CallOutcome.circuitOpen, ⟨3, some t3, CircuitState.OPEN⟩) ∧
    CircuitBreaker.call cfg ⟨3, some t3, CircuitState.OPEN⟩ now2 true =
      (CallOutcome.success, ⟨0, some t3, CircuitState.CLOSED⟩) ∧
    CircuitBreaker.call cfg ⟨3, some t3, CircuitState.OPEN⟩ now2 false =
      (CallOutcome.failure, ⟨4, some now2, CircuitState.OPEN⟩) := by
  have hw : ¬ cfg.recovery_timeout < now - t3 := not_lt.2 hwait
  refine ⟨?_, ?_, ?_, ?_, ?_, ?_⟩ <;>
    simp [CircuitBreaker.call, CircuitBreaker.init, CircuitBreaker.onFailure,
      CircuitBreaker.onSuccess, hthr, hw, hrec]

/-- Witness for C1 at a concrete configuration: threshold 3, recovery
timeout 10, failures at times 0, 1, 2, a fail-fast call at time 5 and a
probe at time 20. -/
theorem C1_circuit_breaker_state_machine_witness :
    (CircuitBreaker.call ⟨3, 10⟩ CircuitBreaker.init 0 false).2 =
      ⟨1, some 0, CircuitState.CLOSED⟩ ∧
    (CircuitBreaker.call ⟨3, 10⟩ ⟨1, some 0, CircuitState.CLOSED⟩ 1 false).2 =
      ⟨2, some 1, CircuitState.CLOSED⟩ ∧
    (CircuitBreaker.call ⟨3, 10⟩ ⟨2, some 1, CircuitState.CLOSED⟩ 2 false).2 =
      ⟨3, some 2, CircuitState.OPEN⟩ ∧
    CircuitBreaker.call ⟨3, 10⟩ ⟨3, some 2, CircuitState.OPEN⟩ 5 true =
      (CallOutcome.circuitOpen, ⟨3, some 2, CircuitState.OPEN⟩) ∧
    CircuitBreaker.call ⟨3, 10⟩ ⟨3, some 2, CircuitState.OPEN⟩ 20 true =
      (CallOutcome.success, ⟨0, some 2, CircuitState.CLOSED⟩) ∧
    CircuitBreaker.call ⟨3, 10⟩ ⟨3, some 2, CircuitState.OPEN⟩ 20 false =
      (CallOutcome.failure, ⟨4, some 20, CircuitState.OPEN⟩) :=
  C1_circuit_breaker_state_machine ⟨3, 10⟩ 0 1 2 5 20 true rfl (by norm_num) (by norm_num)

/-! ## Retry with exponential backoff (error_handler.py, retry_with_backoff) -/

/-- Configuration for the retry mechanism (class RetryConfig), with the
source's default values. -/
structure RetryConfig where
  max_attempts : Nat := 3
  base_delay : ℚ := 1
  max_delay : ℚ := 60
  exponential_base : ℚ := 2
  jitter : Bool := true

/-- Backoff delay computed at a failed attempt:
min(base_delay * exponential_base ^ attempt, max_delay). -/
def backoff_delay (cfg : RetryConfig) (attempt : Nat) : ℚ :=
  min (cfg.base_delay * cfg.exponential_base ^ attempt) cfg.max_delay

/-- Delay actually slept after a failed attempt: when jitter is enabled the
backoff delay is multiplied by 0.5 + random() * 0.5; the random draw for each
attempt is abstracted by rand, with rand attempt in the interval from 0
inclusive to 1 exclusive. -/
def slept_delay (cfg : RetryConfig) (rand : Nat → ℚ) (attempt : Nat) : ℚ :=
  if cfg.jitter then backoff_delay cfg attempt * (1/2 + rand attempt * (1/2))
  else backoff_delay cfg attempt

/-- Loop body of the wrapper produced by retry_with_backoff.  The wrapped
function is abstracted by fn, mapping the attempt index to some result or
none for an exception.  The fuel argument counts the attempts still allowed
(initially max_attempts), so fuel = 1 means this is the final attempt, whose
exception is re-raised.  Returns the overall result (none = an exception
escaped to the caller), the number of invocations of fn, and the list of
slept delays in order. -/
def retryAux (cfg : RetryConfig) (rand : Nat → ℚ) (fn : Nat → Option α) :
    Nat → Nat → Option α × Nat × List ℚ
  | 0, _ => (none, 0, [])
  | remaining + 1, attempt =>
    match fn attempt with
    | some v => (some v, 1, [])
    | none =>
      if remaining = 0 then (none, 1, [])
      else
        let r := retryAux cfg rand fn remaining (attempt + 1)
        (r.1, r.2.1 + 1, slept_delay cfg rand attempt :: r.2.2)

/-- Wrapper produced by the retry_with_backoff decorator: up to max_attempts
invocations starting at attempt index 0. -/
def retry_with_backoff (cfg : RetryConfig) (rand : Nat → ℚ) (fn : Nat → Option α) :
    Option α × Nat × List ℚ :=
  retryAux cfg rand fn cfg.max_attempts 0

/-- Helper: on an always-failing function, retryAux makes exactly fuel
invocations, surfaces the exception, and sleeps the backoff delays of all
attempts but the last. -/
theorem retryAux_const_none (cfg : RetryConfig) (rand : Nat → ℚ) :
    ∀ remaining attempt, 1 ≤ remaining →
      retryAux cfg rand (fun _ => (none : Option Unit)) remaining attempt =
        (none, remaining,
          (List.range (remaining - 1)).map (fun k => slept_delay cfg rand (attempt + k))) := by
  intro remaining
  induction remaining with
  | zero => omega
  | succ s ih =>
    intro attempt _
    cases s with
    | zero => simp [retryAux]
    | succ t =>
      have hrec := ih (attempt + 1) (by omega)
      rw [retryAux]
      simp only [hrec]
      simp [List.range_succ_eq_map, List.map_map, Function.comp]
      intro a _
      congr 1
      omega

/-- C4 counterexample: the claim quantifies over every configuration with
maxAttempts at least 1, but with maxAttempts = 3, baseDelay = 1,
maxDelay = 60, exponentialBase = 1/2 and jitter disabled, an always-failing
function sleeps the delays 1 and then 1/2, a strictly decreasing sequence
(both below maxDelay), so the inter-attempt delays are not non-decreasing. -/
theorem C4_retry_bound_counterexample :
    (retry_with_backoff ⟨3, 1, 60, 1/2, false⟩ (fun _ => 0)
        (fun _ => (none : Option Unit))).2.2 = [1, 1/2] ∧
    ¬ List.Sorted (· ≤ ·)
        (retry_with_backoff ⟨3, 1, 60, 1/2, false⟩ (fun _ => 0)
          (fun _ => (none : Option Unit))).2.2 := by
  have h : (retry_with_backoff ⟨3, 1, 60, 1/2, false⟩ (fun _ => 0)
      (fun _ => (none : Option Unit))).2.2 = [1, 1/2] := by
    norm_num [retry_with_backoff, retryAux, slept_delay, backoff_delay]
  refine ⟨h, ?_⟩
  rw [h]
  simp [List.sorted_cons]
  norm_num

/-- C4 as amended: for every configuration with maxAttempts at least 1, an
always-failing wrapped function is invoked exactly maxAttempts times and the
last error is surfaced to the caller; the delay slept before the retry that
follows failed attempt k is min(baseDelay * exponentialBase^k, maxDelay),
scaled, when jitter is enabled, by the factor 0.5 + random()*0.5, which lies
in the interval from 0.5 inclusive to 1 exclusive; and provided
exponentialBase is at least 1 and baseDelay is nonnegative, the sequence of
computed backoff delays (the slept delays whenever jitter is disabled) is
non-decreasing and capped at maxDelay. -/
theorem C4_retry_bound_amended (cfg : RetryConfig) (rand : Nat → ℚ) (k : Nat)
    (h1 : 1 ≤ cfg.max_attempts) (hbase : 0 ≤ cfg.base_delay)
    (hexp : 1 ≤ cfg.exponential_base) (hr0 : 0 ≤ rand k) (hr1 : rand k < 1) :
    retry_with_backoff cfg rand (fun _ => (none : Option Unit)) =
      (none, cfg.max_attempts,
        (List.range (cfg.max_attempts - 1)).map (slept_delay cfg rand)) ∧
    (cfg.jitter = false → slept_delay cfg rand k = backoff_delay cfg k) ∧
    (cfg.jitter = true →
      slept_delay cfg rand k = backoff_delay cfg k * (1/2 + rand k * (1/2)) ∧
      1/2 ≤ 1/2 + rand k * (1/2) ∧ 1/2 + rand k * (1/2) < 1) ∧
    backoff_delay cfg k ≤ backoff_delay cfg (k + 1) ∧
    backoff_delay cfg k ≤ cfg.max_delay := by
  refine ⟨?_, ?_, ?_, ?_, ?_⟩
  · rw [retry_with_backoff, retryAux_const_none cfg rand cfg.max_attempts 0 h1]
    simp
  · intro hj
    simp [slept_delay, hj]
  · intro hj
    exact ⟨by simp [slept_delay, hj], by linarith, by linarith⟩
  · unfold backoff_delay
    apply min_le_min _ le_rfl
    apply mul_le_mul_of_nonneg_left _ hbase
    exact pow_le_pow_right₀ hexp (Nat.le_succ k)
  · exact min_le_right _ _

/-- Witness for the amended C4 at the source's default configuration
(maxAttempts 3, baseDelay 1, maxDelay 60, exponentialBase 2, jitter on) with
the random draw fixed at 1/2. -/
theorem C4_retry_bound_amended_witness :
    retry_with_backoff ⟨3, 1, 60, 2, true⟩ (fun _ => 1/2) (fun _ => (none : Option Unit)) =
      (none, 3, (List.range 2).map (slept_delay ⟨3, 1, 60, 2, true⟩ (fun _ => 1/2))) ∧
    ((⟨3, 1, 60, 2, true⟩ : RetryConfig).jitter = false →
      slept_delay ⟨3, 1, 60, 2, true⟩ (fun _ => 1/2) 0 = backoff_delay ⟨3, 1, 60, 2, true⟩ 0) ∧
    ((⟨3, 1, 60, 2, true⟩ : RetryConfig).jitter = true →
      slept_delay ⟨3, 1, 60, 2, true⟩ (fun _ => 1/2) 0 =
        backoff_delay ⟨3, 1, 60, 2, true⟩ 0 * (1/2 + (1/2) * (1/2)) ∧
      (1/2 : ℚ) ≤ 1/2 + (1/2) * (1/2) ∧ (1/2 : ℚ) + (1/2) * (1/2) < 1) ∧
    backoff_delay ⟨3, 1, 60, 2, true⟩ 0 ≤ backoff_delay ⟨3, 1, 60, 2, true⟩ 1 ∧
    backoff_delay ⟨3, 1, 60, 2, true⟩ 0 ≤ 60 :=
  C4_retry_bound_amended ⟨3, 1, 60, 2, true⟩ (fun _ => 1/2) 0 (by norm_num) (by norm_num)
    (by norm_num) (by norm_num) (by norm_num)

/-! ## Audio cache (tts_batch_processor.py, class AudioCache) -/

/-- Rows of the audio_cache SQLite table as (sentence_hash, file_path) pairs.
The voice_name, audio_format, sample_rate and created_at columns are never
read back by the code, so they are omitted; sentence_hash is the PRIMARY KEY,
so insertion keeps at most one row per key. -/
abbrev CacheIndex := List (String × String)

/-- AudioCache._get_sentence_hash: the SHA-256 digest of
"sentence|voice_name|audio_format|sample_rate".  The digest is modelled by
its preimage string: like the digest it is a deterministic function of the
four parameters, and it is injective in them, which is the role the hash
plays as a cache key. -/
def _get_sentence_hash (sentence voice_name audio_format : String) (sample_rate : Nat) :
    String :=
  sentence ++ "|" ++ voice_name ++ "|" ++ audio_format ++ "|" ++ toString sample_rate

/-- AudioCache.cache_audio: INSERT OR REPLACE keyed by sentence_hash — the
new row replaces any previous row with the same key. -/
def cache_audio (sentence voice_name audio_format : String) (sample_rate : Nat)
    (file_path : String) (idx : CacheIndex) : CacheIndex :=
  (_get_sentence_hash sentence voice_name audio_format sample_rate, file_path) ::
    idx.filter (fun row => row.1 != _get_sentence_hash sentence voice_name audio_format sample_rate)

/-- AudioCache.get_cached_audio: compute the key and query the index.  If a
row exists and its referenced file still exists, return the path; if the row
is stale (file gone), DELETE it and miss; with no row, miss with the index
unchanged.  The filesystem is abstracted by the predicate file_exists. -/
def get_cached_audio (file_exists : String → Bool)
    (sentence voice_name audio_format : String) (sample_rate : Nat) (idx : CacheIndex) :
    Option String × CacheIndex :=
  let h := _get_sentence_hash sentence voice_name audio_format sample_rate
  match idx.lookup h with
  | none => (none, idx)
  | some p =>
    if file_exists p then (some p, idx)
    else (none, idx.filter (fun row => row.1 != h))

/-! ## The processor and its per-item synthesis path
(tts_batch_processor.py, class AdvancedTTSProcessor) -/

/-- Fields of UltraProcessingConfig that the claims depend on, with the
source's defaults; concurrency, delay and async tuning fields are omitted. -/
structure UltraProcessingConfig where
  voice_name : String := "en-US-Neural2-A"
  audio_format : String := "MP3"
  sample_rate : Nat := 24000
  batch_size : Nat := 20
  retry_attempts : Nat := 3
  enable_caching : Bool := true
  intelligent_batching : Bool := true
  resume_from_checkpoint : Bool := true
  checkpoint_interval : Nat := 50
  voice_rotation_enabled : Bool := true

/-- The attributes of an AdvancedTTSProcessor object that the per-item path
reads.  language_code is an Option String: reading the attribute when it was
never assigned raises AttributeError, modelled by the none case. -/
structure AdvancedTTSProcessor where
  config : UltraProcessingConfig
  language_code : Option String

/-- AdvancedTTSProcessor.__init__ (lines 305-341): it assigns output_dir,
config, cache, checkpoint_manager, batcher, voice_rotator, client and the
thread-safety fields, but no statement assigns self.language_code, so the
constructed object carries none for it. -/
def AdvancedTTSProcessor.init (config : UltraProcessingConfig) : AdvancedTTSProcessor :=
  { config := config, language_code := none }

/-- Outcome of one call to the external provider (client.synthesize_speech):
success, a GoogleAPIError whose message mentions quota or rate, any other
GoogleAPIError, or a generic exception. -/
inductive AttemptOutcome
  | ok
  | apiRateError
  | apiOtherError
  | genericError
deriving DecidableEq

/-- Result of synthesize_sentence_ultra: the returned filepath (none = item
failure), the cache index afterwards, and how many times the external
provider was invoked. -/
structure SynthResult where
  result : Option String
  cache : CacheIndex
  provider_calls : Nat
deriving DecidableEq

/-- Retry loop of synthesize_sentence_ultra (for attempt in
range(retry_attempts)).  Building VoiceSelectionParams reads
self.language_code before the provider is reached: with the attribute
missing, AttributeError (a generic exception) is raised and the provider is
not invoked on that attempt.  Otherwise the provider outcome decides:
ok persists the artifact at out_path, caches it when caching is enabled, and
returns the path; a quota/rate GoogleAPIError sleeps and continues with the
next attempt unconditionally; any other GoogleAPIError returns None at once;
a generic exception continues unless this was the final attempt.  The fuel
argument counts the remaining attempts (initially retry_attempts); the loop
running out of fuel is the fall-through return None.  The result triple is
(returned path, cache index, provider invocations). -/
def synthLoop (p : AdvancedTTSProcessor) (provider : Nat → AttemptOutcome)
    (sentence voice out_path : String) :
    Nat → Nat → CacheIndex → Option String × CacheIndex × Nat
  | 0, _, idx => (none, idx, 0)
  | remaining + 1, attempt, idx =>
    match p.language_code with
    | none =>
      if remaining = 0 then (none, idx, 0)
      else synthLoop p provider sentence voice out_path remaining (attempt + 1) idx
    | some _ =>
      match provider attempt with
      | AttemptOutcome.ok =>
        let idx1 := if p.config.enable_caching then
            cache_audio sentence voice p.config.audio_format p.config.sample_rate out_path idx
          else idx
        (some out_path, idx1, 1)
      | AttemptOutcome.apiRateError =>
        let r := synthLoop p provider sentence voice out_path remaining (attempt + 1) idx
        (r.1, r.2.1, r.2.2 + 1)
      | AttemptOutcome.apiOtherError => (none, idx, 1)
      | AttemptOutcome.genericError =>
        if remaining = 0 then (none, idx, 1)
        else
          let r := synthLoop p provider sentence voice out_path remaining (attempt + 1) idx
          (r.1, r.2.1, r.2.2 + 1)

/-- synthesize_sentence_ultra, with the voice chosen by the rotator, the
output filepath (a deterministic function of index and sanitized sentence in
the source), the filesystem and the provider behaviour abstracted into
parameters.  On a cache hit the cached artifact is copied to out_path and
out_path is returned with no provider call; on a miss (or with caching
disabled) the retry loop runs. -/
def synthesize_sentence_ultra (p : AdvancedTTSProcessor) (provider : Nat → AttemptOutcome)
    (file_exists : String → Bool) (sentence voice out_path : String) (idx : CacheIndex) :
    SynthResult :=
  if p.config.enable_caching then
    match get_cached_audio file_exists sentence voice p.config.audio_format
        p.config.sample_rate idx with
    | (some _, idx1) => { result := some out_path, cache := idx1, provider_calls := 0 }
    | (none, idx1) =>
      let r := synthLoop p provider sentence voice out_path p.config.retry_attempts 0 idx1
      { result := r.1, cache := r.2.1, provider_calls := r.2.2 }
  else
    let r := synthLoop p provider sentence voice out_path p.config.retry_attempts 0 idx
    { result := r.1, cache := r.2.1, provider_calls := r.2.2 }

/-! ## The resilience-layer composition (error_handler.py, safe_tts_call) -/

/-- State threaded through safe_tts_call: the tts_api circuit breaker, the
number of errors recorded by handle_tts_errors, and the number of
invocations of the wrapped provider function. -/
structure SafeCallState where
  breaker : CircuitBreaker
  recorded_errors : Nat
  fn_calls : Nat
deriving DecidableEq

/-- The two inner layers of safe_tts_call: handle_tts_errors (innermost)
records every failure of the wrapped function and re-raises, and the circuit
breaker wraps it (when the breaker fails fast, the function is not invoked
and nothing is recorded). -/
def breaker_recorded_call (cfg : CircuitBreakerConfig) (st : SafeCallState) (now : ℚ)
    (fnOk : Bool) : CallOutcome × SafeCallState :=
  let r := CircuitBreaker.call cfg st.breaker now fnOk
  (r.1,
    { breaker := r.2,
      recorded_errors := st.recorded_errors + (if r.1 = CallOutcome.failure then 1 else 0),
      fn_calls := st.fn_calls + (if r.1 = CallOutcome.circuitOpen then 0 else 1) })

/-- The outermost layer of safe_tts_call: the retry_with_backoff loop around
the breaker-wrapped call.  Both a wrapped-function failure and the
CircuitBreakerOpenException are caught by the generic except clause and
retried; delays are irrelevant to the composition claim and omitted.  The
fuel argument counts remaining attempts. -/
def safe_tts_call_loop (cfg : CircuitBreakerConfig) (times : Nat → ℚ) (fnOk : Nat → Bool) :
    Nat → Nat → SafeCallState → Bool × SafeCallState
  | 0, _, st => (false, st)
  | remaining + 1, attempt, st =>
    let r := breaker_recorded_call cfg st (times attempt) (fnOk attempt)
    match r.1 with
    | CallOutcome.success => (true, r.2)
    | _ =>
      if remaining = 0 then (false, r.2)
      else safe_tts_call_loop cfg times fnOk remaining (attempt + 1) r.2

/-- safe_tts_call: retry (RetryConfig with max_attempts 3) applied to the
tts_api circuit breaker (default CircuitBreakerConfig: threshold 5, recovery
timeout 60) applied to error recording applied to the provider call. -/
def safe_tts_call (times : Nat → ℚ) (fnOk : Nat → Bool) (st : SafeCallState) :
    Bool × SafeCallState :=
  safe_tts_call_loop {} times fnOk 3 0 st

/-! ## Cache and synthesis-path lemmas -/

/-- A freshly stored row is found by a lookup with the same key. -/
theorem lookup_cache_audio_self (s v f : String) (r : Nat) (path : String) (idx : CacheIndex) :
    (cache_audio s v f r path idx).lookup (_get_sentence_hash s v f r) = some path := by
  simp [cache_audio, List.lookup]

/-- With the language_code attribute missing, every attempt of the retry loop
raises AttributeError before the provider call: the loop always returns None,
leaves the cache alone, and never invokes the provider. -/
theorem synthLoop_language_none (p : AdvancedTTSProcessor) (hln : p.language_code = none)
    (provider : Nat → AttemptOutcome) (s v out : String) :
    ∀ fuel attempt idx, synthLoop p provider s v out fuel attempt idx = (none, idx, 0) := by
  intro fuel
  induction fuel with
  | zero => intro attempt idx; rfl
  | succ m ih =>
    intro attempt idx
    rw [synthLoop, hln]
    cases m with
    | zero => simp
    | succ t => simpa using ih (attempt + 1) idx

/-- The retry loop invokes the provider at most once per unit of fuel. -/
theorem synthLoop_calls_le (p : AdvancedTTSProcessor) (provider : Nat → AttemptOutcome)
    (s v out : String) :
    ∀ fuel attempt idx, (synthLoop p provider s v out fuel attempt idx).2.2 ≤ fuel := by
  intro fuel
  induction fuel with
  | zero => intro attempt idx; simp [synthLoop]
  | succ m ih =>
    intro attempt idx
    rw [synthLoop]
    cases hl : p.language_code with
    | none =>
      cases m with
      | zero => exact Nat.zero_le 1
      | succ t => exact Nat.le_succ_of_le (ih (attempt + 1) idx)
    | some lc =>
      cases hp : provider attempt with
      | ok => exact Nat.succ_le_succ (Nat.zero_le m)
      | apiRateError => exact Nat.succ_le_succ (ih (attempt + 1) idx)
      | apiOtherError => exact Nat.succ_le_succ (Nat.zero_le m)
      | genericError =>
        cases m with
        | zero => exact Nat.le_refl 1
        | succ t => exact Nat.succ_le_succ (ih (attempt + 1) idx)

/-- On a cache miss with caching enabled, synthesize_sentence_ultra runs the
retry loop on the (possibly self-healed) index returned by the lookup. -/
theorem synthesize_sentence_ultra_miss (p : AdvancedTTSProcessor)
    (provider : Nat → AttemptOutcome) (fe : String → Bool) (s v out : String) (idx : CacheIndex)
    (hc : p.config.enable_caching = true)
    (hmiss : (get_cached_audio fe s v p.config.audio_format p.config.sample_rate idx).1 = none) :
    synthesize_sentence_ultra p provider fe s v out idx =
      { result := (synthLoop p provider s v out p.config.retry_attempts 0
            (get_cached_audio fe s v p.config.audio_format p.config.sample_rate idx).2).1,
        cache := (synthLoop p provider s v out p.config.retry_attempts 0
            (get_cached_audio fe s v p.config.audio_format p.config.sample_rate idx).2).2.1,
        provider_calls := (synthLoop p provider s v out p.config.retry_attempts 0
            (get_cached_audio fe s v p.config.audio_format p.config.sample_rate idx).2).2.2 } := by
  rcases hg : get_cached_audio fe s v p.config.audio_format p.config.sample_rate idx with ⟨o, idx1⟩
  rw [hg] at hmiss
  simp only [] at hmiss
  subst hmiss
  simp [synthesize_sentence_ultra, hc, hg]

/-- On a cache hit with caching enabled, synthesize_sentence_ultra returns
the output path without invoking the provider. -/
theorem synthesize_sentence_ultra_hit (p : AdvancedTTSProcessor)
    (provider : Nat → AttemptOutcome) (fe : String → Bool) (s v out : String) (idx : CacheIndex)
    (cp : String) (hc : p.config.enable_caching = true)
    (hhit : (get_cached_audio fe s v p.config.audio_format p.config.sample_rate idx).1
      = some cp) :
    synthesize_sentence_ultra p provider fe s v out idx =
      { result := some out,
        cache := (get_cached_audio fe s v p.config.audio_format p.config.sample_rate idx).2,
        provider_calls := 0 } := by
  rcases hg : get_cached_audio fe s v p.config.audio_format p.config.sample_rate idx with ⟨o, idx1⟩
  rw [hg] at hhit
  simp only [] at hhit
  subst hhit
  simp [synthesize_sentence_ultra, hc, hg]

/-- C8: cache self-healing lookup.  If the index holds a row for the computed
key and the referenced artifact exists, lookup returns its path with the
index unchanged; if the row is stale (artifact gone), lookup deletes exactly
the rows with that key and returns a miss; if no row exists, lookup returns a
miss and leaves the index unchanged. -/
theorem C8_cache_self_healing_lookup (fe : String → Bool) (s v f : String) (r : Nat)
    (idx : CacheIndex) (p : String) :
    (idx.lookup (_get_sentence_hash s v f r) = some p → fe p = true →
      get_cached_audio fe s v f r idx = (some p, idx)) ∧
    (idx.lookup (_get_sentence_hash s v f r) = some p → fe p = false →
      get_cached_audio fe s v f r idx =
        (none, idx.filter (fun row => row.1 != _get_sentence_hash s v f r))) ∧
    (idx.lookup (_get_sentence_hash s v f r) = none →
      get_cached_audio fe s v f r idx = (none, idx)) := by
  refine ⟨?_, ?_, ?_⟩
  · intro h1 h2
    simp [get_cached_audio, h1, h2]
  · intro h1 h2
    simp [get_cached_audio, h1, h2]
  · intro h1
    simp [get_cached_audio, h1]

/-- Witness for C8 on a one-row index for the key of ("a", "b", "c", 0):
a hit when the artifact exists, a deletion returning a miss when it does
not, and an unchanged miss on the empty index. -/
theorem C8_cache_self_healing_lookup_witness :
    get_cached_audio (fun q => q == "p1") "a" "b" "c" 0
        [(_get_sentence_hash "a" "b" "c" 0, "p1")] =
      (some "p1", [(_get_sentence_hash "a" "b" "c" 0, "p1")]) ∧
    get_cached_audio (fun _ => false) "a" "b" "c" 0
        [(_get_sentence_hash "a" "b" "c" 0, "p1")] =
      (none, ([(_get_sentence_hash "a" "b" "c" 0, "p1")] : CacheIndex).filter
        (fun row => row.1 != _get_sentence_hash "a" "b" "c" 0)) ∧
    get_cached_audio (fun _ => true) "a" "b" "c" 0 [] = (none, []) :=
  ⟨(C8_cache_self_healing_lookup (fun q => q == "p1") "a" "b" "c" 0
      [(_get_sentence_hash "a" "b" "c" 0, "p1")] "p1").1
      (by simp [List.lookup]) (by simp),
   (C8_cache_self_healing_lookup (fun _ => false) "a" "b" "c" 0
      [(_get_sentence_hash "a" "b" "c" 0, "p1")] "p1").2.1
      (by simp [List.lookup]) rfl,
   (C8_cache_self_healing_lookup (fun _ => true) "a" "b" "c" 0 [] "p1").2.2 rfl⟩

/-- C6: for every processor as constructed by __init__, and every item whose
cache lookup misses (or with caching disabled), synthesize_sentence_ultra
returns None: building VoiceSelectionParams reads self.language_code, which
__init__ never assigns, so every attempt raises AttributeError inside the
generic exception handler, the retry loop is exhausted without the
provider-success branch ever being reached, and the provider is never
invoked. -/
theorem C6_missing_language_code (cfg : UltraProcessingConfig)
    (provider : Nat → AttemptOutcome) (fe : String → Bool) (s v out : String) (idx : CacheIndex)
    (hmiss : cfg.enable_caching = false ∨
      (get_cached_audio fe s v cfg.audio_format cfg.sample_rate idx).1 = none) :
    (synthesize_sentence_ultra (AdvancedTTSProcessor.init cfg) provider fe s v out idx).result
        = none ∧
    (synthesize_sentence_ultra (AdvancedTTSProcessor.init cfg) provider fe s v out
        idx).provider_calls = 0 := by
  have hln : (AdvancedTTSProcessor.init cfg).language_code = none := rfl
  have hloop := synthLoop_language_none (AdvancedTTSProcessor.init cfg) hln provider s v out
  by_cases hc : cfg.enable_caching = true
  · have hm : (get_cached_audio fe s v cfg.audio_format cfg.sample_rate idx).1 = none := by
      rcases hmiss with hcf | hm
      · rw [hcf] at hc
        exact absurd hc (by simp)
      · exact hm
    rw [synthesize_sentence_ultra_miss (AdvancedTTSProcessor.init cfg) provider fe s v out
      idx hc hm]
    simp [hloop]
  · have hcf : cfg.enable_caching = false := by simpa using hc
    have hloop2 := synthLoop_language_none ⟨cfg, none⟩ rfl provider s v out
    constructor <;>
      simp [synthesize_sentence_ultra, AdvancedTTSProcessor.init, hcf, hloop2]

/-- Witness for C6 with the default configuration, an empty cache index, and
a provider that would succeed on every call: the item still fails and the
provider is never invoked. -/
theorem C6_missing_language_code_witness :
    (synthesize_sentence_ultra (AdvancedTTSProcessor.init {}) (fun _ => AttemptOutcome.ok)
        (fun _ => true) "a" "b" "o" []).result = none ∧
    (synthesize_sentence_ultra (AdvancedTTSProcessor.init {}) (fun _ => AttemptOutcome.ok)
        (fun _ => true) "a" "b" "o" []).provider_calls = 0 :=
  C6_missing_language_code {} (fun _ => AttemptOutcome.ok) (fun _ => true) "a" "b" "o" []
    (Or.inr rfl)

/-- C2 counterexample: the per-item provider invocation on a cache miss is
not equivalent to the middleware composition retry around circuit breaker
around error recording around the raw call.  Even on a processor whose
language_code attribute is present, a provider failing every call with a
non-quota GoogleAPIError is invoked exactly once by
synthesize_sentence_ultra's inline loop (the non-rate API branch returns
None immediately), while safe_tts_call with a fresh tts_api breaker invokes
the same always-failing provider three times (its retry loop retries every
exception).  In the source, synthesize_sentence_ultra never calls
safe_tts_call at all. -/
theorem C2_resilience_composition_counterexample :
    (synthesize_sentence_ultra ⟨{}, some "en-US"⟩ (fun _ => AttemptOutcome.apiOtherError)
        (fun _ => false) "a" "b" "o" []).provider_calls = 1 ∧
    (safe_tts_call (fun _ => 0) (fun _ => false) ⟨CircuitBreaker.init, 0, 0⟩).2.fn_calls = 3 ∧
    ¬ (synthesize_sentence_ultra ⟨{}, some "en-US"⟩ (fun _ => AttemptOutcome.apiOtherError)
          (fun _ => false) "a" "b" "o" []).provider_calls =
        (safe_tts_call (fun _ => 0) (fun _ => false) ⟨CircuitBreaker.init, 0, 0⟩).2.fn_calls := by
  have h1 : (synthesize_sentence_ultra ⟨{}, some "en-US"⟩
      (fun _ => AttemptOutcome.apiOtherError) (fun _ => false) "a" "b" "o" []).provider_calls
      = 1 := by
    norm_num [synthesize_sentence_ultra, get_cached_audio, _get_sentence_hash, synthLoop]
  have h2 : (safe_tts_call (fun _ => 0) (fun _ => false)
      ⟨CircuitBreaker.init, 0, 0⟩).2.fn_calls = 3 := by
    simp +decide [safe_tts_call, safe_tts_call_loop, breaker_recorded_call,
      CircuitBreaker.call, CircuitBreaker.init, CircuitBreaker.onFailure]
  refine ⟨h1, h2, ?_⟩
  rw [h1, h2]
  omega

/-- C2 as amended: on a cache miss the provider is invoked directly inside
synthesize_sentence_ultra's own retry loop — not through safe_tts_call's
retry/breaker/error-recording middleware.  The inline loop invokes the
provider at most retry_attempts times; when the first attempt succeeds, the
item path returns the output path after exactly one provider call, with the
artifact persisted at that path and stored in the cache under the item's
fingerprint; and a provider failing every call with a non-quota
GoogleAPIError fails the item after exactly one invocation. -/
theorem C2_provider_invocation_amended (cfg : UltraProcessingConfig) (lc : String)
    (provider : Nat → AttemptOutcome) (fe : String → Bool) (s v out : String) (idx : CacheIndex)
    (hc : cfg.enable_caching = true) (hra : 1 ≤ cfg.retry_attempts)
    (hmiss : (get_cached_audio fe s v cfg.audio_format cfg.sample_rate idx).1 = none) :
    (synthesize_sentence_ultra ⟨cfg, some lc⟩ provider fe s v out idx).provider_calls
        ≤ cfg.retry_attempts ∧
    (provider 0 = AttemptOutcome.ok →
      synthesize_sentence_ultra ⟨cfg, some lc⟩ provider fe s v out idx =
        { result := some out,
          cache := cache_audio s v cfg.audio_format cfg.sample_rate out
            (get_cached_audio fe s v cfg.audio_format cfg.sample_rate idx).2,
          provider_calls := 1 }) ∧
    ((∀ k, provider k = AttemptOutcome.apiOtherError) →
      (synthesize_sentence_ultra ⟨cfg, some lc⟩ provider fe s v out idx).result = none ∧
      (synthesize_sentence_ultra ⟨cfg, some lc⟩ provider fe s v out idx).provider_calls
        = 1) := by
  rw [synthesize_sentence_ultra_miss ⟨cfg, some lc⟩ provider fe s v out idx hc hmiss]
  obtain ⟨m, hm⟩ : ∃ m, cfg.retry_attempts = m + 1 :=
    ⟨cfg.retry_attempts - 1, by omega⟩
  refine ⟨?_, ?_, ?_⟩
  · simpa using synthLoop_calls_le ⟨cfg, some lc⟩ provider s v out cfg.retry_attempts 0 _
  · intro hok
    rw [hm, synthLoop]
    simp [hok, hc]
  · intro hfail
    rw [hm, synthLoop]
    simp [hfail 0]

/-- Witness for the amended C2 with the default configuration, an empty
index and a provider succeeding at once: one provider call, path returned,
fingerprint stored. -/
theorem C2_provider_invocation_amended_witness :
    (synthesize_sentence_ultra ⟨{}, some "en-US"⟩ (fun _ => AttemptOutcome.ok)
        (fun _ => false) "a" "b" "o" []).provider_calls ≤ 3 ∧
    ((fun _ : Nat => AttemptOutcome.ok) 0 = AttemptOutcome.ok →
      synthesize_sentence_ultra ⟨{}, some "en-US"⟩ (fun _ => AttemptOutcome.ok)
          (fun _ => false) "a" "b" "o" [] =
        { result := some "o",
          cache := cache_audio "a" "b" "MP3" 24000 "o"
            (get_cached_audio (fun _ => false) "a" "b" "MP3" 24000 []).2,
          provider_calls := 1 }) ∧
    ((∀ k : Nat, (fun _ : Nat => AttemptOutcome.ok) k = AttemptOutcome.apiOtherError) →
      (synthesize_sentence_ultra ⟨{}, some "en-US"⟩ (fun _ => AttemptOutcome.ok)
          (fun _ => false) "a" "b" "o" []).result = none ∧
      (synthesize_sentence_ultra ⟨{}, some "en-US"⟩ (fun _ => AttemptOutcome.ok)
          (fun _ => false) "a" "b" "o" []).provider_calls = 1) :=
  C2_provider_invocation_amended {} "en-US" (fun _ => AttemptOutcome.ok) (fun _ => false)
    "a" "b" "o" [] rfl (by norm_num) rfl

/-- C7: cache round trip and idempotent store.  Storing an artifact whose
file exists and looking it up with the same (text, voiceId, format,
sampleRate) returns exactly the stored path; a store is an upsert keyed by
the deterministic fingerprint, so two successive stores for the same key
(a repeat, or a serialized race) leave exactly one row for that key, holding
the last-written path; and a second pipeline pass over the same (text,
params) pair, run on the cache produced by a first pass that missed and
synthesized successfully, is a cache hit that never invokes the provider. -/
theorem C7_cache_round_trip_idempotent (s v f : String) (r : Nat)
    (path p1 p2 : String) (idx : CacheIndex) (fe fe2 : String → Bool)
    (cfg : UltraProcessingConfig) (lc : String)
    (provider provider2 : Nat → AttemptOutcome) (out out2 : String) :
    (fe path = true →
      get_cached_audio fe s v f r (cache_audio s v f r path idx) =
        (some path, cache_audio s v f r path idx)) ∧
    ((cache_audio s v f r p2 (cache_audio s v f r p1 idx)).filter
        (fun row => row.1 == _get_sentence_hash s v f r) =
      [(_get_sentence_hash s v f r, p2)]) ∧
    (cfg.enable_caching = true → 1 ≤ cfg.retry_attempts →
      (get_cached_audio fe s v cfg.audio_format cfg.sample_rate idx).1 = none →
      provider 0 = AttemptOutcome.ok → fe2 out = true →
      (synthesize_sentence_ultra ⟨cfg, some lc⟩ provider2 fe2 s v out2
          (synthesize_sentence_ultra ⟨cfg, some lc⟩ provider fe s v out idx).cache).result
        = some out2 ∧
      (synthesize_sentence_ultra ⟨cfg, some lc⟩ provider2 fe2 s v out2
          (synthesize_sentence_ultra ⟨cfg, some lc⟩ provider fe s v out
            idx).cache).provider_calls = 0) := by
  refine ⟨?_, ?_, ?_⟩
  · intro hfe
    simp [get_cached_audio, lookup_cache_audio_self, hfe]
  · simp [cache_audio, List.filter_filter]
  · intro hc hra hmiss hok hfe2
    have hcache1 :
        (synthesize_sentence_ultra ⟨cfg, some lc⟩ provider fe s v out idx).cache =
          cache_audio s v cfg.audio_format cfg.sample_rate out
            (get_cached_audio fe s v cfg.audio_format cfg.sample_rate idx).2 := by
      rw [synthesize_sentence_ultra_miss ⟨cfg, some lc⟩ provider fe s v out idx hc hmiss]
      obtain ⟨m, hm⟩ : ∃ m, cfg.retry_attempts = m + 1 := ⟨cfg.retry_attempts - 1, by omega⟩
      rw [hm, synthLoop]
      simp [hok, hc]
    have hhit :
        (get_cached_audio fe2 s v cfg.audio_format cfg.sample_rate
          (synthesize_sentence_ultra ⟨cfg, some lc⟩ provider fe s v out idx).cache).1
          = some out := by
      rw [hcache1]
      simp [get_cached_audio, lookup_cache_audio_self, hfe2]
    rw [synthesize_sentence_ultra_hit ⟨cfg, some lc⟩ provider2 fe2 s v out2 _ out hc hhit]
    exact ⟨rfl, rfl⟩

/-- Witness for C7: concrete round trip for key ("a", "b", "c", 0), double
store leaving one row with the second path, and a concrete two-pass pipeline
run with the default configuration where the second pass hits the cache with
zero provider calls. -/
theorem C7_cache_round_trip_idempotent_witness :
    get_cached_audio (fun _ => true) "a" "b" "c" 0 (cache_audio "a" "b" "c" 0 "p" []) =
      (some "p", cache_audio "a" "b" "c" 0 "p" []) ∧
    (cache_audio "a" "b" "c" 0 "q2" (cache_audio "a" "b" "c" 0 "q1" [])).filter
        (fun row => row.1 == _get_sentence_hash "a" "b" "c" 0) =
      [(_get_sentence_hash "a" "b" "c" 0, "q2")] ∧
    (synthesize_sentence_ultra ⟨{}, some "L"⟩ (fun _ => AttemptOutcome.ok) (fun _ => true)
        "a" "b" "o2" (synthesize_sentence_ultra ⟨{}, some "L"⟩ (fun _ => AttemptOutcome.ok)
          (fun _ => true) "a" "b" "o" []).cache).result = some "o2" ∧
    (synthesize_sentence_ultra ⟨{}, some "L"⟩ (fun _ => AttemptOutcome.ok) (fun _ => true)
        "a" "b" "o2" (synthesize_sentence_ultra ⟨{}, some "L"⟩ (fun _ => AttemptOutcome.ok)
          (fun _ => true) "a" "b" "o" []).cache).provider_calls = 0 := by
  have h := C7_cache_round_trip_idempotent "a" "b" "c" 0 "p" "q1" "q2" []
    (fun _ => true) (fun _ => true) {} "L" (fun _ => AttemptOutcome.ok)
    (fun _ => AttemptOutcome.ok) "o" "o2"
  exact ⟨h.1 rfl, h.2.1, (h.2.2 rfl (by norm_num) rfl rfl rfl).1,
    (h.2.2 rfl (by norm_num) rfl rfl rfl).2⟩

/-! ## Intelligent batcher (tts_batch_processor.py, class IntelligentBatcher) -/

/-- Occurrences of a single character in a string (str.count with a
one-character needle). -/
def countChar (c : Char) (s : String) : Nat := s.toList.count c

/-- IntelligentBatcher._calculate_complexity_score: 0.1 per character plus
5 per Japanese full stop, 2 per Japanese comma, and 3 per opening or closing
corner quotation mark. -/
def _calculate_complexity_score (sentence : String) : ℚ :=
  (sentence.length : ℚ) * (1/10)
    + (countChar '。' sentence : ℚ) * 5
    + (countChar '、' sentence : ℚ) * 2
    + (countChar '「' sentence : ℚ) * 3
    + (countChar '」' sentence : ℚ) * 3

/-- The greedy packing loop of create_optimized_batches.  The input triples
carry (1-based index, sentence, score); current is the batch being
accumulated and current_score its running score sum.  A batch is closed
before the next item is placed once it holds max_batch_size items or its
score sum exceeds 100; the trailing non-empty batch is appended at the
end. -/
def packLoop (max_batch_size : Nat) :
    List (Nat × String × ℚ) → List (Nat × String) → ℚ → List (List (Nat × String))
  | [], current, _ => if current.isEmpty then [] else [current]
  | (index, sentence, score) :: rest, current, current_score =>
    if max_batch_size ≤ current.length ∨ 100 < current_score then
      if current.isEmpty then
        packLoop max_batch_size rest [(index, sentence)] score
      else
        current :: packLoop max_batch_size rest [(index, sentence)] score
    else
      packLoop max_batch_size rest (current ++ [(index, sentence)]) (current_score + score)

/-- IntelligentBatcher.create_optimized_batches: pair each sentence with its
1-based index and complexity score, sort by descending score (Python's list
sort is stable; insertion sort with this reflexive descending relation
likewise keeps the original order of equal scores), then pack greedily. -/
def create_optimized_batches (max_batch_size : Nat) (sentences : List String) :
    List (List (Nat × String)) :=
  if sentences.isEmpty then [] else
    let sentence_scores := sentences.enum.map
      (fun is => (is.1 + 1, is.2, _calculate_complexity_score is.2))
    let sorted := List.insertionSort
      (fun a b : Nat × String × ℚ => b.2.2 ≤ a.2.2) sentence_scores
    packLoop max_batch_size sorted [] 0

/-- Flattening the packed batches recovers the packed items in order, after
the current batch. -/
theorem packLoop_flatten (m : Nat) :
    ∀ (l : List (Nat × String × ℚ)) (cur : List (Nat × String)) (sc : ℚ),
      (packLoop m l cur sc).flatten = cur ++ l.map (fun t => (t.1, t.2.1)) := by
  intro l
  induction l with
  | nil =>
    intro cur sc
    by_cases hcur : cur.isEmpty
    · simp [packLoop, hcur, List.isEmpty_iff.1 hcur]
    · simp [packLoop, hcur]
  | cons t rest ih =>
    intro cur sc
    obtain ⟨index, sentence, score⟩ := t
    rw [packLoop]
    by_cases hfull : m ≤ cur.length ∨ 100 < sc
    · rw [if_pos hfull]
      by_cases hcur : cur.isEmpty
      · rw [if_pos hcur, ih]
        simp [List.isEmpty_iff.1 hcur]
      · rw [if_neg hcur]
        simp [ih]
    · rw [if_neg hfull, ih]
      simp

/-- Every batch produced by the packing loop holds at most max m 1 items
provided the current batch does. -/
theorem packLoop_length (m : Nat) (hm : 1 ≤ m) :
    ∀ (l : List (Nat × String × ℚ)) (cur : List (Nat × String)) (sc : ℚ),
      cur.length ≤ m →
      ∀ b ∈ packLoop m l cur sc, b.length ≤ m := by
  intro l
  induction l with
  | nil =>
    intro cur sc hcur b hb
    rw [packLoop] at hb
    by_cases hce : cur.isEmpty
    · simp [hce] at hb
    · simp [hce] at hb
      simpa [hb] using hcur
  | cons t rest ih =>
    intro cur sc hcur b hb
    obtain ⟨index, sentence, score⟩ := t
    rw [packLoop] at hb
    by_cases hfull : m ≤ cur.length ∨ 100 < sc
    · rw [if_pos hfull] at hb
      by_cases hce : cur.isEmpty
      · rw [if_pos hce] at hb
        exact ih [(index, sentence)] score (by simpa using hm) b hb
      · rw [if_neg hce] at hb
        rcases List.mem_cons.1 hb with hb | hb
        · simpa [hb] using hcur
        · exact ih [(index, sentence)] score (by simpa using hm) b hb
    · rw [if_neg hfull] at hb
      have hlt : cur.length < m := by
        rcases Nat.lt_or_ge cur.length m with h | h
        · exact h
        · exact absurd (Or.inl h) hfull
      exact ih (cur ++ [(index, sentence)]) (sc + score) (by simpa using hlt) b hb

/-- C5: batch planning conservation.  For every input list and every
maxBatchSize of at least 1, the flattened output of the planner is a
permutation of the input items paired with their 1-based indices (each item
in exactly one batch, no duplicates, no omissions), no batch holds more than
maxBatchSize items, and across the concatenated batches the items are in
non-increasing order of complexity score. -/
theorem C5_batch_planning_conservation (sentences : List String) (m : Nat) (hm : 1 ≤ m) :
    ((create_optimized_batches m sentences).flatten).Perm
      (sentences.enum.map (fun is => (is.1 + 1, is.2))) ∧
    (∀ b ∈ create_optimized_batches m sentences, b.length ≤ m) ∧
    ((create_optimized_batches m sentences).flatten).Pairwise
      (fun a b => _calculate_complexity_score b.2 ≤ _calculate_complexity_score a.2) := by
  by_cases hs : sentences.isEmpty
  · simp [create_optimized_batches, hs, List.isEmpty_iff.1 hs]
  · have hrel_total : IsTotal (Nat × String × ℚ)
        (fun a b : Nat × String × ℚ => b.2.2 ≤ a.2.2) := ⟨fun a b => le_total b.2.2 a.2.2⟩
    have hrel_trans : IsTrans (Nat × String × ℚ)
        (fun a b : Nat × String × ℚ => b.2.2 ≤ a.2.2) :=
      ⟨fun a b c hab hbc => le_trans hbc hab⟩
    rw [create_optimized_batches, if_neg hs]
    simp only [packLoop_flatten, List.nil_append]
    set scores := sentences.enum.map
      (fun is => (is.1 + 1, is.2, _calculate_complexity_score is.2)) with hscores
    have hperm : (List.insertionSort
        (fun a b : Nat × String × ℚ => b.2.2 ≤ a.2.2) scores).Perm scores :=
      List.perm_insertionSort _ _
    have hsorted := List.sorted_insertionSort
      (fun a b : Nat × String × ℚ => b.2.2 ≤ a.2.2) scores
    have hscore_eq : ∀ t ∈ List.insertionSort
        (fun a b : Nat × String × ℚ => b.2.2 ≤ a.2.2) scores,
        t.2.2 = _calculate_complexity_score t.2.1 := by
      intro t ht
      have := hperm.mem_iff.1 ht
      rw [hscores] at this
      obtain ⟨is, _, rfl⟩ := List.mem_map.1 this
      rfl
    refine ⟨?_, ?_, ?_⟩
    · have := hperm.map (fun t : Nat × String × ℚ => (t.1, t.2.1))
      refine this.trans ?_
      rw [hscores, List.map_map]
      exact List.Perm.refl _
    · exact packLoop_length m hm _ [] 0 (by simp)
    · have hpw : (List.insertionSort
          (fun a b : Nat × String × ℚ => b.2.2 ≤ a.2.2) scores).Pairwise
          (fun a b => _calculate_complexity_score b.2.1 ≤ _calculate_complexity_score a.2.1) := by
        refine List.Pairwise.imp_of_mem ?_ hsorted
        intro a b ha hb hab
        rw [hscore_eq a ha, hscore_eq b hb] at hab
        exact hab
      rw [List.pairwise_map]
      exact hpw

/-- Witness for C5: a concrete two-sentence input with maxBatchSize 1. -/
theorem C5_batch_planning_conservation_witness :
    ((create_optimized_batches 1 ["ab", "cdef"]).flatten).Perm
      ((["ab", "cdef"] : List String).enum.map (fun is => (is.1 + 1, is.2))) ∧
    (∀ b ∈ create_optimized_batches 1 ["ab", "cdef"], b.length ≤ 1) ∧
    ((create_optimized_batches 1 ["ab", "cdef"]).flatten).Pairwise
      (fun a b => _calculate_complexity_score b.2 ≤ _calculate_complexity_score a.2) :=
  C5_batch_planning_conservation ["ab", "cdef"] 1 (by norm_num)

/-! ## Checkpoint store and the orchestrator run
(tts_batch_processor.py, CheckpointManager and
AdvancedTTSProcessor.process_batch_ultra) -/

/-- The persisted checkpoint file: none = absent, some none = present but
not valid JSON (corrupt or partially written), some (some (s, t)) = readable
with processed_indices s and total_count t.  The timestamp field is never
read back and is omitted. -/
abbrev CheckpointFile := Option (Option (Finset Nat × Nat))

/-- CheckpointManager.load_checkpoint: a missing file returns (set(), 0); a
file that fails to parse is caught and also returns (set(), 0); otherwise
the stored pair is returned. -/
def load_checkpoint : CheckpointFile → Finset Nat × Nat
  | some (some data) => data
  | _ => (∅, 0)

/-- CheckpointManager.save_checkpoint opens the checkpoint file with mode w,
truncating it in place, and then json.dump writes the new content into the
same file; there is no temporary file and no rename.  The write is modelled
by the sequence of file states observable after each of its two steps: after
the truncating open the file exists but holds no valid JSON; after the dump
completes it holds the new data.  A crash during save leaves the file in
whichever state was reached last. -/
def save_checkpoint_states (data : Finset Nat × Nat) : List CheckpointFile :=
  [some none, some (some data)]

/-- Aggregate state of one process_batch_ultra run, restricted to what the
claims observe: the processed-indices set, the list of item indices actually
attempted (handed to process_batch_ultra_async) in order, the success and
failure counters of the results dictionary, and the checkpoint file. -/
structure RunState where
  processed : Finset Nat
  attempted : List Nat
  successful : Nat
  failed : Nat
  checkpoint_file : CheckpointFile
deriving DecidableEq

/-- Lines 572-579 of process_batch_ultra: load the checkpoint and resume
from it only when the loaded set is non-empty and its total_count equals the
current number of sentences; otherwise clear the checkpoint file and start
with an empty processed set.  Returns the initial processed set and the
checkpoint file as left on disk. -/
def resume_from_checkpoint (n : Nat) (file : CheckpointFile) :
    Finset Nat × CheckpointFile :=
  let loaded := load_checkpoint file
  if loaded.1.Nonempty ∧ loaded.2 = n then (loaded.1, file) else (∅, none)

/-- One iteration of the batch loop (lines 623-659, without logging, timing
and the inter-batch delay): indices already processed are dropped; if
nothing remains the batch is skipped entirely (continue); otherwise every
remaining index is attempted, the successes (per the oracle succ,
abstracting whether synthesize_sentence_ultra returns a path for that
index) enter the processed set and the success counter, the rest increment
the failure counter, and every checkpoint_interval batches the checkpoint
is saved with the current processed set. -/
def process_one_batch (succ : Nat → Bool) (n interval : Nat) (st : RunState)
    (batch : List Nat) (batch_num : Nat) : RunState :=
  let b := batch.filter (fun i => decide (i ∉ st.processed))
  if b.isEmpty then st
  else
    let st1 :=
      { st with
        attempted := st.attempted ++ b,
        processed := st.processed ∪ (b.filter succ).toFinset,
        successful := st.successful + (b.filter succ).length,
        failed := st.failed + (b.filter (fun i => !(succ i))).length }
    if batch_num % interval = 0 then
      { st1 with checkpoint_file := some (some (st1.processed, n)) }
    else st1

/-- The batch loop of process_batch_ultra over the planned batches, with the
1-based loop counter. -/
def run_batches (succ : Nat → Bool) (n interval : Nat) :
    List (List Nat) → Nat → RunState → RunState
  | [], _, st => st
  | batch :: rest, batch_num, st =>
    run_batches succ n interval rest (batch_num + 1)
      (process_one_batch succ n interval st batch batch_num)

/-- process_batch_ultra (lines 568-683) at the orchestration level, over the
planned batches of 1-based indices: load-and-validate the checkpoint, run
the batch loop, and finally clear the checkpoint file unconditionally
(lines 679-681). -/
def process_batch_ultra_run (succ : Nat → Bool) (interval n : Nat)
    (batches : List (List Nat)) (file0 : CheckpointFile) : RunState :=
  let r := resume_from_checkpoint n file0
  let stEnd := run_batches succ n interval batches 1
    { processed := r.1, attempted := [], successful := 0, failed := 0,
      checkpoint_file := r.2 }
  { stEnd with checkpoint_file := none }

/-- A run interrupted by a shutdown signal after its first k batches: the
signal handler (lines 343-348) saves a checkpoint carrying the processed
set recorded so far and the full input length, then exits. -/
def interrupted_run (succ : Nat → Bool) (interval n : Nat)
    (batches : List (List Nat)) (file0 : CheckpointFile) (k : Nat) : RunState :=
  let r := resume_from_checkpoint n file0
  let st := run_batches succ n interval (batches.take k) 1
    { processed := r.1, attempted := [], successful := 0, failed := 0,
      checkpoint_file := r.2 }
  { st with checkpoint_file := some (some (st.processed, n)) }

/-- The processed set after one batch iteration: previous set plus the
successes among the not-yet-processed items of the batch. -/
theorem process_one_batch_processed (succ : Nat → Bool) (n interval : Nat) (st : RunState)
    (batch : List Nat) (num : Nat) :
    (process_one_batch succ n interval st batch num).processed =
      st.processed ∪
        ((batch.filter (fun i => decide (i ∉ st.processed))).filter succ).toFinset := by
  simp only [process_one_batch]
  by_cases hb : (batch.filter (fun i => decide (i ∉ st.processed))).isEmpty
  · rw [if_pos hb, List.isEmpty_iff.1 hb]
    simp
  · rw [if_neg hb]
    by_cases hnum : num % interval = 0
    · rw [if_pos hnum]
    · rw [if_neg hnum]

/-- The attempted list after one batch iteration: the not-yet-processed
items of the batch are appended. -/
theorem process_one_batch_attempted (succ : Nat → Bool) (n interval : Nat) (st : RunState)
    (batch : List Nat) (num : Nat) :
    (process_one_batch succ n interval st batch num).attempted =
      st.attempted ++ batch.filter (fun i => decide (i ∉ st.processed)) := by
  simp only [process_one_batch]
  by_cases hb : (batch.filter (fun i => decide (i ∉ st.processed))).isEmpty
  · rw [if_pos hb, List.isEmpty_iff.1 hb]
    simp
  · rw [if_neg hb]
    by_cases hnum : num % interval = 0
    · rw [if_pos hnum]
    · rw [if_neg hnum]

/-- Dropping already-processed items before filtering for successes does not
change the union with the processed set. -/
theorem union_filter_filter (P : Finset Nat) (batch : List Nat) (succ : Nat → Bool) :
    P ∪ ((batch.filter (fun i => decide (i ∉ P))).filter succ).toFinset =
      P ∪ (batch.filter succ).toFinset := by
  ext i
  simp [List.mem_filter]
  tauto

/-- Across the whole batch loop, the processed set ends as the initial set
plus every successful index of the planned batches. -/
theorem run_batches_processed (succ : Nat → Bool) (n interval : Nat) :
    ∀ (batches : List (List Nat)) (num : Nat) (st : RunState),
      (run_batches succ n interval batches num st).processed =
        st.processed ∪ (batches.flatten.filter succ).toFinset := by
  intro batches
  induction batches with
  | nil => intro num st; simp [run_batches]
  | cons batch rest ih =>
    intro num st
    rw [run_batches, ih, process_one_batch_processed, union_filter_filter]
    simp [List.filter_append, Finset.union_assoc]

/-- Across the whole batch loop, provided no index occurs twice in the
planned batches and the initial processed set agrees with E on every planned
index, the attempted indices are exactly the planned indices outside E, in
plan order. -/
theorem run_batches_attempted (succ : Nat → Bool) (n interval : Nat) (E : Finset Nat) :
    ∀ (batches : List (List Nat)) (num : Nat) (st : RunState),
      batches.flatten.Nodup →
      (∀ i ∈ batches.flatten, (i ∈ st.processed ↔ i ∈ E)) →
      (run_batches succ n interval batches num st).attempted =
        st.attempted ++ batches.flatten.filter (fun i => decide (i ∉ E)) := by
  intro batches
  induction batches with
  | nil =>
    intro num st _ _
    simp [run_batches]
  | cons batch rest ih =>
    intro num st hnodup hagree
    rw [List.flatten_cons] at hnodup
    obtain ⟨hnb, hnr, hdisj⟩ := List.nodup_append.1 hnodup
    have hfilter_eq : batch.filter (fun i => decide (i ∉ st.processed))
        = batch.filter (fun i => decide (i ∉ E)) := by
      apply List.filter_congr
      intro i hi
      have hiff := hagree i (by rw [List.flatten_cons]; exact List.mem_append.2 (Or.inl hi))
      simp [hiff]
    have hproc : (process_one_batch succ n interval st batch num).processed
        = st.processed ∪ ((batch.filter (fun i => decide (i ∉ E))).filter succ).toFinset := by
      rw [process_one_batch_processed, hfilter_eq]
    have hatt : (process_one_batch succ n interval st batch num).attempted
        = st.attempted ++ batch.filter (fun i => decide (i ∉ E)) := by
      rw [process_one_batch_attempted, hfilter_eq]
    have hagree2 : ∀ i ∈ rest.flatten,
        (i ∈ (process_one_batch succ n interval st batch num).processed ↔ i ∈ E) := by
      intro i hi
      have hib : i ∉ batch := fun hmem => hdisj hmem hi
      have hnot : i ∉ ((batch.filter (fun j => decide (j ∉ E))).filter succ).toFinset := by
        rw [List.mem_toFinset]
        intro hmem
        exact hib (List.mem_of_mem_filter (List.mem_of_mem_filter hmem))
      rw [hproc, Finset.mem_union]
      have hiff := hagree i (by rw [List.flatten_cons]; exact List.mem_append.2 (Or.inr hi))
      constructor
      · rintro (h | h)
        · exact hiff.1 h
        · exact absurd h hnot
      · intro h
        exact Or.inl (hiff.2 h)
    rw [run_batches, ih (num + 1) _ hnr hagree2, hatt]
    simp [List.filter_append]

/-- Re-validating a checkpoint saved with the same total count restores
exactly its processed set (an empty saved set fails the non-emptiness test
but yields the same empty resume set). -/
theorem resume_from_checkpoint_same (P : Finset Nat) (n : Nat) :
    (resume_from_checkpoint n (some (some (P, n)))).1 = P := by
  unfold resume_from_checkpoint load_checkpoint
  by_cases hP : P.Nonempty
  · simp [hP]
  · simp [hP, Finset.not_nonempty_iff_eq_empty.1 hP]

/-- C3: checkpoint-aware resume.  A loaded checkpoint is applied only when
its total count equals the current input length (a non-empty resume set
forces the totals to match), a total-count mismatch discards the checkpoint
and starts fresh, the run attempts exactly the planned indices outside the
resume set, and for a fresh run interrupted after its first k batches and
restarted on the same input, the interrupted run's recorded processed set
and the second run's attempted indices partition the planned indices: their
union covers every index, they are disjoint, and nothing is attempted
twice. -/
theorem C3_checkpoint_resume (succ : Nat → Bool) (interval n k : Nat)
    (batches : List (List Nat)) (file : CheckpointFile)
    (hnodup : batches.flatten.Nodup) (hk : 1 ≤ k) :
    ((resume_from_checkpoint n file).1 ≠ ∅ → (load_checkpoint file).2 = n) ∧
    ((load_checkpoint file).2 ≠ n → resume_from_checkpoint n file = (∅, none)) ∧
    ((process_batch_ultra_run succ interval n batches file).attempted =
      batches.flatten.filter
        (fun i => decide (i ∉ (resume_from_checkpoint n file).1))) ∧
    ((interrupted_run succ interval n batches none k).processed ∪
        (process_batch_ultra_run succ interval n batches
          (interrupted_run succ interval n batches none k).checkpoint_file).attempted.toFinset
        = batches.flatten.toFinset ∧
      Disjoint (interrupted_run succ interval n batches none k).processed
        (process_batch_ultra_run succ interval n batches
          (interrupted_run succ interval n batches none k).checkpoint_file).attempted.toFinset ∧
      (process_batch_ultra_run succ interval n batches
        (interrupted_run succ interval n batches none k).checkpoint_file).attempted.Nodup) := by
  have hatt_gen : ∀ f0 : CheckpointFile,
      (process_batch_ultra_run succ interval n batches f0).attempted =
        batches.flatten.filter
          (fun i => decide (i ∉ (resume_from_checkpoint n f0).1)) := by
    intro f0
    have h := run_batches_attempted succ n interval (resume_from_checkpoint n f0).1 batches 1
      { processed := (resume_from_checkpoint n f0).1, attempted := [], successful := 0,
        failed := 0, checkpoint_file := (resume_from_checkpoint n f0).2 }
      hnodup (fun i _ => Iff.rfl)
    simpa [process_batch_ultra_run] using h
  have hres0 : resume_from_checkpoint n none = (∅, none) := by
    simp [resume_from_checkpoint, load_checkpoint]
  have hiproc : (interrupted_run succ interval n batches none k).processed
      = ((batches.take k).flatten.filter succ).toFinset := by
    simp [interrupted_run, hres0, run_batches_processed]
  have hicheck : (interrupted_run succ interval n batches none k).checkpoint_file
      = some (some (((batches.take k).flatten.filter succ).toFinset, n)) := by
    simp [interrupted_run, hres0, run_batches_processed]
  set P : Finset Nat := ((batches.take k).flatten.filter succ).toFinset with hP
  have hsub : ∀ i ∈ P, i ∈ batches.flatten := by
    intro i hi
    have h1 : i ∈ (batches.take k).flatten :=
      (List.mem_filter.1 (List.mem_toFinset.1 hi)).1
    have h2 := List.take_append_drop k batches
    rw [← h2, List.flatten_append]
    exact List.mem_append.2 (Or.inl h1)
  have hA2 : (process_batch_ultra_run succ interval n batches
      (interrupted_run succ interval n batches none k).checkpoint_file).attempted
      = batches.flatten.filter (fun i => decide (i ∉ P)) := by
    rw [hicheck, hatt_gen]
    simp [resume_from_checkpoint_same]
  refine ⟨?_, ?_, hatt_gen file, ?_, ?_, ?_⟩
  · intro hne
    simp only [resume_from_checkpoint] at hne
    by_cases hcond : (load_checkpoint file).1.Nonempty ∧ (load_checkpoint file).2 = n
    · exact hcond.2
    · rw [if_neg hcond] at hne
      exact absurd rfl hne
  · intro hne
    simp only [resume_from_checkpoint]
    rw [if_neg (fun hcond => hne hcond.2)]
  · rw [hiproc, hA2]
    ext i
    simp only [Finset.mem_union, List.mem_toFinset, List.mem_filter, decide_eq_true_eq]
    constructor
    · rintro (h | ⟨h, _⟩)
      · exact hsub i h
      · exact h
    · intro h
      by_cases hp : i ∈ P
      · exact Or.inl hp
      · exact Or.inr ⟨h, hp⟩
  · rw [hiproc, hA2]
    rw [Finset.disjoint_left]
    intro i hi hmem
    have := (List.mem_filter.1 (List.mem_toFinset.1 hmem)).2
    rw [decide_eq_true_eq] at this
    exact this hi
  · rw [hA2]
    exact hnodup.filter _

/-- Witness for C3: input of three indices planned as [[1, 2], [3]], where
only index 1 succeeds, the first run is interrupted after one batch, and the
second run resumes from its saved checkpoint; the stale file in conjuncts
one and two carries total count 5 against input length 3. -/
theorem C3_checkpoint_resume_witness :
    ((resume_from_checkpoint 3 (some (some ({1}, 5)))).1 ≠ ∅ →
      (load_checkpoint (some (some ({1}, 5)))).2 = 3) ∧
    ((load_checkpoint (some (some ({1}, 5)))).2 ≠ 3 →
      resume_from_checkpoint 3 (some (some ({1}, 5))) = (∅, none)) ∧
    ((process_batch_ultra_run (fun i => i == 1) 50 3 [[1, 2], [3]]
        (some (some ({1}, 5)))).attempted =
      ([[1, 2], [3]] : List (List Nat)).flatten.filter
        (fun i => decide (i ∉ (resume_from_checkpoint 3 (some (some ({1}, 5)))).1))) ∧
    ((interrupted_run (fun i => i == 1) 50 3 [[1, 2], [3]] none 1).processed ∪
        (process_batch_ultra_run (fun i => i == 1) 50 3 [[1, 2], [3]]
          (interrupted_run (fun i => i == 1) 50 3 [[1, 2], [3]] none
            1).checkpoint_file).attempted.toFinset
        = ([[1, 2], [3]] : List (List Nat)).flatten.toFinset ∧
      Disjoint (interrupted_run (fun i => i == 1) 50 3 [[1, 2], [3]] none 1).processed
        (process_batch_ultra_run (fun i => i == 1) 50 3 [[1, 2], [3]]
          (interrupted_run (fun i => i == 1) 50 3 [[1, 2], [3]] none
            1).checkpoint_file).attempted.toFinset ∧
      (process_batch_ultra_run (fun i => i == 1) 50 3 [[1, 2], [3]]
        (interrupted_run (fun i => i == 1) 50 3 [[1, 2], [3]] none
          1).checkpoint_file).attempted.Nodup) :=
  C3_checkpoint_resume (fun i => i == 1) 50 3 1 [[1, 2], [3]] (some (some ({1}, 5)))
    (by decide) (by norm_num)

/-- C9 counterexample: a run over the single planned batch [1] whose only
item fails reaches its end with failed = 1, yet the checkpoint file is
cleared: the claim that a run ending with failed items leaves the persisted
checkpoint state in place is false. -/
theorem C9_checkpoint_clear_counterexample :
    ¬ (1 ≤ (process_batch_ultra_run (fun _ => false) 50 1 [[1]] none).failed →
        (process_batch_ultra_run (fun _ => false) 50 1 [[1]] none).checkpoint_file ≠ none) := by
  intro h
  have h1 : (process_batch_ultra_run (fun _ => false) 50 1 [[1]] none).failed = 1 := by
    simp +decide [process_batch_ultra_run, run_batches, process_one_batch,
      resume_from_checkpoint, load_checkpoint]
  have h2 : (process_batch_ultra_run (fun _ => false) 50 1 [[1]] none).checkpoint_file
      = none := rfl
  exact h (by rw [h1]) h2

/-- C9 as amended: the checkpoint file is cleared whenever a run reaches its
end, regardless of failed items — and the failed attempted indices are
indeed missing from the final processed set, so the information needed to
resume them is lost with the cleared checkpoint. -/
theorem C9_checkpoint_clear_amended (succ : Nat → Bool) (interval n : Nat)
    (batches : List (List Nat)) (file : CheckpointFile)
    (hnodup : batches.flatten.Nodup) :
    (process_batch_ultra_run succ interval n batches file).checkpoint_file = none ∧
    (∀ i ∈ (process_batch_ultra_run succ interval n batches file).attempted,
      succ i = false →
        i ∉ (process_batch_ultra_run succ interval n batches file).processed) := by
  have hatt : (process_batch_ultra_run succ interval n batches file).attempted =
      batches.flatten.filter
        (fun i => decide (i ∉ (resume_from_checkpoint n file).1)) := by
    have h := run_batches_attempted succ n interval (resume_from_checkpoint n file).1 batches 1
      { processed := (resume_from_checkpoint n file).1, attempted := [], successful := 0,
        failed := 0, checkpoint_file := (resume_from_checkpoint n file).2 }
      hnodup (fun i _ => Iff.rfl)
    simpa [process_batch_ultra_run] using h
  have hproc : (process_batch_ultra_run succ interval n batches file).processed =
      (resume_from_checkpoint n file).1 ∪ (batches.flatten.filter succ).toFinset := by
    have h := run_batches_processed succ n interval batches 1
      { processed := (resume_from_checkpoint n file).1, attempted := [], successful := 0,
        failed := 0, checkpoint_file := (resume_from_checkpoint n file).2 }
    simpa [process_batch_ultra_run] using h
  constructor
  · rfl
  · intro i hi hsf
    rw [hatt] at hi
    obtain ⟨hif, hidec⟩ := List.mem_filter.1 hi
    have hiE : i ∉ (resume_from_checkpoint n file).1 := by simpa using hidec
    rw [hproc, Finset.mem_union]
    rintro (h | h)
    · exact hiE h
    · obtain ⟨_, hsucc⟩ := List.mem_filter.1 (List.mem_toFinset.1 h)
      rw [hsf] at hsucc
      cases hsucc

/-- Witness for the amended C9: the failed single-item run of the C9
counterexample, with the cleared checkpoint and the failed index absent from
the processed set. -/
theorem C9_checkpoint_clear_amended_witness :
    (process_batch_ultra_run (fun _ => false) 50 1 [[1]] none).checkpoint_file = none ∧
    (∀ i ∈ (process_batch_ultra_run (fun _ => false) 50 1 [[1]] none).attempted,
      (fun _ : Nat => false) i = false →
        i ∉ (process_batch_ultra_run (fun _ => false) 50 1 [[1]] none).processed) :=
  C9_checkpoint_clear_amended (fun _ => false) 50 1 [[1]] none (by decide)

/-- C10 counterexample: saving a new checkpoint ({1,2,3}, 5) over a
previously persisted ({1,2}, 5) passes through the truncated in-place
state, which a subsequent load reads as the absent checkpoint (∅, 0) —
neither the previous state nor the complete new one.  A crash between the
truncating open and the completed dump therefore destroys the previously
persisted checkpoint, so the save is not atomic. -/
theorem C10_checkpoint_save_counterexample :
    ¬ ∀ st ∈ save_checkpoint_states ({1, 2, 3}, 5),
        load_checkpoint st = load_checkpoint (some (some ({1, 2}, 5))) ∨
        load_checkpoint st = ({1, 2, 3}, 5) := by
  intro h
  rcases h (some none) (by simp [save_checkpoint_states]) with h1 | h1
  · exact absurd h1 (by decide)
  · exact absurd h1 (by decide)

/-- C10 as amended: save_checkpoint overwrites the checkpoint file in place
by truncating and rewriting it, with no temporary file and no rename; a
crash during save can expose only the truncated state or the completed new
data, a load of the truncated state degrades to the absent checkpoint
(∅, 0) rather than failing, and a load after the completed write returns the
new data. -/
theorem C10_checkpoint_save_amended (data : Finset Nat × Nat) (st : CheckpointFile)
    (hst : st ∈ save_checkpoint_states data) :
    (st = some none ∨ st = some (some data)) ∧
    (load_checkpoint st = (∅, 0) ∨ load_checkpoint st = data) ∧
    load_checkpoint (some (some data)) = data := by
  have hcases : st = some none ∨ st = some (some data) := by
    simpa [save_checkpoint_states] using hst
  rcases hcases with h | h <;> subst h <;> simp [load_checkpoint]

/-- Witness for the amended C10 at the truncated crash state of a save of
({1,2}, 5). -/
theorem C10_checkpoint_save_amended_witness :
    ((some none : CheckpointFile) = some none ∨
      (some none : CheckpointFile) = some (some ({1, 2}, 5))) ∧
    (load_checkpoint (some none) = (∅, 0) ∨ load_checkpoint (some none) = ({1, 2}, 5)) ∧
    load_checkpoint (some (some ({1, 2}, 5))) = ({1, 2}, 5) :=
  C10_checkpoint_save_amended ({1, 2}, 5) (some none) (by simp [save_checkpoint_states])

end TTS
